import Mathlib

/-!
Verification of the wasify-go marshaling core: the packed-word codec
(`PackUI64` / `UnpackUI64` from internal/utils), the allocation tracker
(`allocationMap`), the host-function invocation bridge
(`convertParamsToStruct`, `writeResultsToMemory`, `cleanup`,
`wazeroHostFunctionCallback`), the host- and guest-side `WriteMultiPack`,
the guest-side `MultiPackedData.Read`, and the host-side
`GuestFunctionResult.ReadResults`.

Machine integers are modelled as `Nat` with explicit `% 2 ^ w` at the
points where the Go code performs a narrowing conversion; a `uintN`-typed
variable appears as a `Nat` together with a `< 2 ^ N` hypothesis where a
theorem needs the typing bound.
-/

/-! ### ValueType constants (internal/types/types.go) -/

/-- ValueTypeBytes tag (types.go: `ValueTypeBytes ValueType = iota`). -/
def ValueTypeBytes : Nat := 0

/-- ValueTypeByte tag. -/
def ValueTypeByte : Nat := 1

/-- ValueTypeI32 tag. -/
def ValueTypeI32 : Nat := 2

/-- ValueTypeI64 tag. -/
def ValueTypeI64 : Nat := 3

/-- ValueTypeF32 tag. -/
def ValueTypeF32 : Nat := 4

/-- ValueTypeF64 tag. -/
def ValueTypeF64 : Nat := 5

/-- ValueTypeString tag. -/
def ValueTypeString : Nat := 6

/-- ValueTypePack, the reserved tag for packed arrays (types.go: `ValueTypePack ValueType = 255`). -/
def ValueTypePack : Nat := 255

/-! ### Packed-word codec (internal/utils, `PackUI64` / `UnpackUI64`)

Go source:
```
func PackUI64(dataType types.ValueType, offset uint32, size uint32) (uint64, error) {
    if size >= (1 << 24) {
        return 0, fmt.Errorf(...)
    }
    return (uint64(dataType) << 56) | (uint64(offset) << 24) | uint64(size&0xFFFFFF), nil
}
```
The error return is modelled by `Option`. -/

/-- Host-side `PackUI64`: packs (dataType, offset, size) into one 64-bit word,
failing (`none`) when the size does not fit in 24 bits. -/
def PackUI64 (dataType offset size : Nat) : Option Nat :=
  if size ≥ 1 <<< 24 then
    none
  else
    some ((dataType <<< 56) ||| (offset <<< 24) ||| (size &&& 0xFFFFFF))

/-- Host-side `UnpackUI64`: extracts (dataType, offset, size) from a packed word.
The `% 256` is the `types.ValueType(...)` (uint8) conversion, the masks are the
`uint32(... & 0xFFFFFFFF)` and `uint32(... & 0xFFFFFF)` conversions. -/
def UnpackUI64 (packedData : Nat) : Nat × Nat × Nat :=
  ((packedData >>> 56) % 256,
   (packedData >>> 24) &&& 0xFFFFFFFF,
   packedData &&& 0xFFFFFF)

/-! Arithmetic characterisation of the codec. -/

theorem shiftLeft_lor_eq_add (a k b : Nat) (hb : b < 2 ^ k) :
    (a <<< k) ||| b = a * 2 ^ k + b := by
  apply Nat.eq_of_testBit_eq
  intro i
  rcases Nat.lt_or_ge i k with hik | hik
  · have h1 : Nat.testBit ((a <<< k) ||| b) i = Nat.testBit b i := by
      simp [Nat.testBit_or, Nat.testBit_shiftLeft, Nat.not_le.mpr hik]
    have hmod : (a * 2 ^ k + b) % 2 ^ k = b := by
      rw [Nat.mul_comm, Nat.mul_add_mod, Nat.mod_eq_of_lt hb]
    have h2 : Nat.testBit (a * 2 ^ k + b) i = Nat.testBit b i := by
      have := Nat.testBit_mod_two_pow (a * 2 ^ k + b) k i
      rw [hmod, decide_eq_true hik, Bool.true_and] at this
      exact this.symm
    rw [h1, h2]
  · obtain ⟨j, rfl⟩ : ∃ j, i = k + j := ⟨i - k, by omega⟩
    have hdiv : (a * 2 ^ k + b) / 2 ^ k = a := by
      rw [Nat.mul_comm, Nat.mul_add_div (Nat.two_pow_pos k), Nat.div_eq_of_lt hb,
        Nat.add_zero]
    have h2 : Nat.testBit (a * 2 ^ k + b) (k + j) = Nat.testBit a j := by
      rw [Nat.testBit_to_div_mod, Nat.testBit_to_div_mod, Nat.pow_add,
        ← Nat.div_div_eq_div_mul, hdiv]
    have hb' : Nat.testBit b (k + j) = false :=
      Nat.testBit_lt_two_pow
        (Nat.lt_of_lt_of_le hb (Nat.pow_le_pow_right (by norm_num) (by omega)))
    have h1 : Nat.testBit ((a <<< k) ||| b) (k + j) = Nat.testBit a j := by
      rw [Nat.testBit_or, Nat.testBit_shiftLeft, hb', Bool.or_false,
        decide_eq_true (Nat.le_add_right k j), Bool.true_and, Nat.add_sub_cancel_left]
    rw [h1, h2]

theorem PackUI64_eq_arith (t off s : Nat) (hoff : off < 2 ^ 32) (hs : s < 2 ^ 24) :
    PackUI64 t off s = some (t * 2 ^ 56 + (off * 2 ^ 24 + s)) := by
  unfold PackUI64
  rw [if_neg (by simp only [Nat.shiftLeft_eq, Nat.one_mul]; omega)]
  have hmask : s &&& 0xFFFFFF = s := by
    have h24 : (0xFFFFFF : Nat) = 2 ^ 24 - 1 := by norm_num
    rw [h24, Nat.and_pow_two_sub_one_eq_mod, Nat.mod_eq_of_lt hs]
  rw [Nat.or_assoc, hmask, shiftLeft_lor_eq_add off 24 s hs,
    shiftLeft_lor_eq_add t 56 (off * 2 ^ 24 + s) (by omega)]

theorem UnpackUI64_eq_arith (w : Nat) :
    UnpackUI64 w = (w / 2 ^ 56 % 256, w / 2 ^ 24 % 2 ^ 32, w % 2 ^ 24) := by
  unfold UnpackUI64
  have h32 : (0xFFFFFFFF : Nat) = 2 ^ 32 - 1 := by norm_num
  have h24 : (0xFFFFFF : Nat) = 2 ^ 24 - 1 := by norm_num
  rw [Nat.shiftRight_eq_div_pow, Nat.shiftRight_eq_div_pow, h32, h24,
    Nat.and_pow_two_sub_one_eq_mod, Nat.and_pow_two_sub_one_eq_mod]

/-- C1: for every type tag in [0,255], offset in [0,2^32) and size in [0,2^24),
unpacking the packed word returns exactly the original triple:
`UnpackUI64 (PackUI64 t off s) = (t, off, s)`. -/
theorem unpack_pack_roundtrip (t off s : Nat)
    (ht : t < 256) (hoff : off < 2 ^ 32) (hs : s < 2 ^ 24) :
    (PackUI64 t off s).map UnpackUI64 = some (t, off, s) := by
  rw [PackUI64_eq_arith t off s hoff hs, Option.map_some', UnpackUI64_eq_arith]
  refine congrArg some ?_
  refine Prod.ext ?_ (Prod.ext ?_ ?_) <;> simp only <;> omega

/-- Witness for C1 at the concrete triple (3, 5, 7). -/
theorem unpack_pack_roundtrip_witness :
    (PackUI64 3 5 7).map UnpackUI64 = some (3, 5, 7) :=
  unpack_pack_roundtrip 3 5 7 (by norm_num) (by norm_num) (by norm_num)

/-- C2: `PackUI64` fails exactly when the size needs more than 24 bits;
in particular size `2 ^ 24` fails and size `2 ^ 24 - 1` succeeds. -/
theorem pack_size_overflow (t off s : Nat) :
    (PackUI64 t off s = none ↔ 2 ^ 24 ≤ s)
    ∧ PackUI64 t off (2 ^ 24) = none
    ∧ (PackUI64 t off (2 ^ 24 - 1)).isSome = true := by
  have hsh : (1 <<< 24 : Nat) = 2 ^ 24 := by
    rw [Nat.shiftLeft_eq, Nat.one_mul]
  refine ⟨?_, ?_, ?_⟩
  · unfold PackUI64
    rw [hsh]
    by_cases h : 2 ^ 24 ≤ s
    · simp [h]
    · simp [h]
  · unfold PackUI64
    rw [hsh]
    simp
  · unfold PackUI64
    rw [hsh]
    simp

/-- C10: unpacking any 64-bit word yields a size below 2^24, and packing the
resulting triple succeeds and returns exactly the original word, so the codec
is a bijection on the 64-bit domain. -/
theorem pack_unpack_roundtrip (w : Nat) (hw : w < 2 ^ 64) :
    (UnpackUI64 w).2.2 < 2 ^ 24
    ∧ PackUI64 (UnpackUI64 w).1 (UnpackUI64 w).2.1 (UnpackUI64 w).2.2 = some w := by
  rw [UnpackUI64_eq_arith]
  refine ⟨Nat.mod_lt _ (by norm_num), ?_⟩
  rw [PackUI64_eq_arith _ _ _ (Nat.mod_lt _ (by norm_num)) (Nat.mod_lt _ (by norm_num))]
  refine congrArg some ?_
  omega

/-- Witness for C10 at a concrete 64-bit word with all three fields nonzero. -/
theorem pack_unpack_roundtrip_witness :
    (UnpackUI64 0xFF00000123000456).2.2 < 2 ^ 24
    ∧ PackUI64 (UnpackUI64 0xFF00000123000456).1 (UnpackUI64 0xFF00000123000456).2.1
        (UnpackUI64 0xFF00000123000456).2.2 = some 0xFF00000123000456 :=
  pack_unpack_roundtrip 0xFF00000123000456 (by norm_num)

/-! ### Allocation tracker (`allocationMap`, src/unnamed/part_026)

Go source:
```
type allocationMap[K, V xsync.IntegerConstraint] struct {
    _map  *xsync.MapOf[K, V]
    _size V
}
func (am *allocationMap[K, V]) store(offset K, size V) { am._map.Store(offset, size); am._size += size }
func (am *allocationMap[K, V]) load(offset K) (V, bool) { return am._map.Load(offset) }
func (am *allocationMap[K, V]) delete(offset K)        { v, _ := am._map.LoadAndDelete(offset); am._size -= v }
func (am *allocationMap[K, V]) totalSize() V           { return am._size }
```
The concurrent hash map is modelled as an association list with unique keys;
`_size` is a `uint32` running total, so `+=` and `-=` are arithmetic mod `2^32`. -/

/-- One entry of the tracker: (offset, size). -/
structure AllocationMap where
  entries : List (Nat × Nat)
  size : Nat
deriving DecidableEq

/-- The empty tracker (`newAllocationMap`). -/
def AllocationMap.empty : AllocationMap := ⟨[], 0⟩

/-- Map insert-or-overwrite, the semantics of `xsync.MapOf.Store`. -/
def storeEntries : List (Nat × Nat) → Nat → Nat → List (Nat × Nat)
  | [], k, v => [(k, v)]
  | p :: rest, k, v => if p.1 = k then (k, v) :: rest else p :: storeEntries rest k v

/-- `allocationMap.store`: insert/overwrite the entry and add the size to the
running total (uint32 addition). -/
def AllocationMap.store (am : AllocationMap) (offset size : Nat) : AllocationMap :=
  { entries := storeEntries am.entries offset size
    size := (am.size + size) % 2 ^ 32 }

/-- `allocationMap.load`: look the offset up. -/
def AllocationMap.load (am : AllocationMap) (offset : Nat) : Option Nat :=
  match am.entries.find? (fun q => q.1 == offset) with
  | some q => some q.2
  | none => none

/-- `allocationMap.delete`: `LoadAndDelete` returns the stored value (or the
zero value when absent), the entry is removed, and the running total drops by
that value (uint32 subtraction). -/
def AllocationMap.delete (am : AllocationMap) (offset : Nat) : AllocationMap :=
  let v := (am.load offset).getD 0
  { entries := am.entries.filter (fun q => q.1 != offset)
    size := (am.size + (2 ^ 32 - v % 2 ^ 32)) % 2 ^ 32 }

/-- `allocationMap.totalSize`. -/
def AllocationMap.totalSize (am : AllocationMap) : Nat := am.size

theorem find?_filter_ne_none (l : List (Nat × Nat)) (off : Nat) :
    (l.filter (fun q => q.1 != off)).find? (fun q => q.1 == off) = none := by
  induction l with
  | nil => rfl
  | cons p rest ih =>
    by_cases h : p.1 = off
    · rw [List.filter_cons, if_neg (by simp [h])]
      exact ih
    · rw [List.filter_cons, if_pos (by simp [h]),
        List.find?_cons_of_neg _ (by simp [h])]
      exact ih

/-- C8: deleting a present key removes it and decreases the running total by
exactly the removed size; deleting an absent key leaves the tracker (entries
and total) entirely unchanged. -/
theorem allocationMap_delete_spec (am : AllocationMap) (off v : Nat)
    (hsz : am.size < 2 ^ 32) (hv : v ≤ am.size) :
    (am.load off = some v →
      (am.delete off).totalSize = am.totalSize - v ∧ (am.delete off).load off = none)
    ∧ (am.load off = none → am.delete off = am) := by
  constructor
  · intro hload
    constructor
    · simp only [AllocationMap.delete, AllocationMap.totalSize, hload, Option.getD_some]
      have hvlt : v < 2 ^ 32 := Nat.lt_of_le_of_lt hv hsz
      rw [Nat.mod_eq_of_lt hvlt]
      omega
    · simp only [AllocationMap.delete, AllocationMap.load, find?_filter_ne_none]
  · intro hnone
    have hfind : am.entries.find? (fun q => q.1 == off) = none := by
      unfold AllocationMap.load at hnone
      cases h : am.entries.find? (fun q => q.1 == off) with
      | none => rfl
      | some q => rw [h] at hnone; exact absurd hnone (by simp)
    have hall := List.find?_eq_none.mp hfind
    have hfilter : am.entries.filter (fun q => q.1 != off) = am.entries := by
      apply List.filter_eq_self.mpr
      intro q hq
      have := hall q hq
      simpa [bne] using this
    cases am with
    | mk e s =>
      simp only [AllocationMap.delete, AllocationMap.load] at *
      refine congrArg₂ AllocationMap.mk hfilter ?_
      simp only [hnone, Option.getD_none, Nat.zero_mod, Nat.sub_zero]
      omega

/-- Witness for C8, running the claim's own example: after
`store(5,100); store(9,200); delete(5)` the total is 200, and a second
`delete(5)` is a no-op leaving it at 200. -/
theorem allocationMap_delete_spec_witness :
    ((((AllocationMap.empty.store 5 100).store 9 200).delete 5).totalSize = 200)
    ∧ (((((AllocationMap.empty.store 5 100).store 9 200).delete 5).delete 5).totalSize = 200) := by
  have h1 := (allocationMap_delete_spec ((AllocationMap.empty.store 5 100).store 9 200)
    5 100 (by decide) (by decide)).1 (by decide)
  have h2 := (allocationMap_delete_spec (((AllocationMap.empty.store 5 100).store 9 200).delete 5)
    5 0 (by decide) (by decide)).2 (by decide)
  refine ⟨?_, ?_⟩
  · rw [h1.1]; decide
  · rw [h2, h1.1]; decide

/-! ### Native values crossing the boundary

The Go code passes parameter and result values as `any` restricted to the
seven supported kinds (internal/types `GetOffsetSizeAndDataTypeByConversion`,
module_wazero `Write`/`Read`). Float payloads are carried as opaque bit
patterns; the protocol never computes with them. -/

/-- A native value of one of the supported wire kinds. -/
inductive Value
  | bytes : List Nat → Value
  | byte : Nat → Value
  | u32 : Nat → Value
  | u64 : Nat → Value
  | f32 : Nat → Value
  | f64 : Nat → Value
  | str : List Nat → Value
deriving DecidableEq

/-- `GetOffsetSizeAndDataTypeByConversion` (internal/types/types.go): infer
the wire type tag and byte size from a native value. The Go default branch
(unsupported `any`) cannot arise for the seven modelled kinds. -/
def GetOffsetSizeAndDataTypeByConversion : Value → Nat × Nat
  | .bytes bs => (ValueTypeBytes, bs.length)
  | .byte _ => (ValueTypeByte, 1)
  | .u32 _ => (ValueTypeI32, 4)
  | .u64 _ => (ValueTypeI64, 8)
  | .f32 _ => (ValueTypeF32, 4)
  | .f64 _ => (ValueTypeF64, 8)
  | .str s => (ValueTypeString, s.length)

/-! ### The engine interface

The wazero engine is out of scope; the core needs `Read(packedData)`,
`Malloc(size)`, `Write(offset, value)`, `ReadBytes(offset, size)`,
`Free(offset)` and (guest side) raw 64-bit loads. It is modelled as a
record of deterministic oracles; failures are `none` / `false`. -/

/-- Abstract engine: the `ModuleProxy` / `Memory` operations the core calls. -/
structure Engine where
  readPd : Nat → Option (Nat × Nat × Value)
  malloc : Nat → Option Nat
  write : Nat → Value → Bool
  readBytes : Nat → Nat → Option (List Nat)
  free : Nat → Bool
  readU64 : Nat → Nat

/-! ### Byte conversion helpers (internal/utils/utils.go) -/

/-- Little-endian bytes of one 64-bit word (`binary.LittleEndian.PutUint64`). -/
def u64LeBytes (w : Nat) : List Nat :=
  (List.range 8).map (fun i => w / 256 ^ i % 256)

/-- `Uint64ArrayToBytes`: concatenate the little-endian byte blocks of each
word; the result has `8 * len` bytes. -/
def uint64ArrayToBytes (ws : List Nat) : List Nat :=
  (ws.map u64LeBytes).flatten

/-- Little-endian decode of the first 8 bytes (`binary.LittleEndian.Uint64`). -/
def leU64 (bs : List Nat) : Nat :=
  (bs.take 8).foldr (fun b acc => acc * 256 + b) 0

/-- `BytesToUint64Array`: decode `len / 8` words, the i-th from bytes `8i ..`. -/
def bytesToUint64Array (bs : List Nat) : List Nat :=
  (List.range (bs.length / 8)).map (fun i => leU64 (bs.drop (8 * i)))

/-! ### Host function registration and invocation bridge

Modelled from src/host_function.go (the revision at lines 344-638:
`convertParamsToStruct`, `writeResultsToMemory`, `cleanup`) and
src/unnamed/part_000 lines 151-181 (`wazeroHostFunctionCallback`). The
per-registration `allocationMap` is threaded explicitly; the user callback is
a pure function returning `none` for a nil `*Results`. -/

/-- `Param`: offset, size, and decoded value of one parameter. -/
structure Param where
  Offset : Nat
  Size : Nat
  Value : Value
deriving DecidableEq

/-- `HostFunction`: declared parameter/result type lists and the user callback. -/
structure HostFunction where
  Name : String
  Params : List Nat
  Returns : List Nat
  Callback : List Param → Option (List Value)

/-- Decode loop of `convertParamsToStruct`: for each stack word, `Read` it,
register (offset, size) in the tracker, and collect the `Param`; on a read
error the already-registered entries remain in the tracker and `nil` params
are returned. -/
def convertLoop (E : Engine) : AllocationMap → List Nat → AllocationMap × Except String (List Param)
  | am, [] => (am, .ok [])
  | am, pd :: rest =>
    match E.readPd pd with
    | none => (am, .error "can't read params packed data")
    | some (offset, offsetSize, data) =>
      let am' := am.store offset offsetSize
      match convertLoop E am' rest with
      | (am'', .ok ps) => (am'', .ok (⟨offset, offsetSize, data⟩ :: ps))
      | (am'', .error e) => (am'', .error e)

/-- `convertParamsToStruct`: skip when no params are declared, fail on a
count mismatch, otherwise decode every stack word. -/
def convertParamsToStruct (E : Engine) (hf : HostFunction) (am : AllocationMap)
    (stackParams : List Nat) : AllocationMap × Except String (List Param) :=
  if hf.Params.length = 0 then (am, .ok [])
  else if hf.Params.length ≠ stackParams.length then
    (am, .error "params mismatch expected received")
  else convertLoop E am stackParams

/-- Encode loop of `writeResultsToMemory`: for each (result, declared type),
infer tag and size, check the declaration, `Malloc`, record the offset in the
`returnOffsets` map and the tracker, `Write` the value, and pack the word. -/
def writeLoop (E : Engine) :
    List Value → List Nat → AllocationMap → List (Nat × Nat) → List Nat →
    AllocationMap × List (Nat × Nat) × Except String (List Nat)
  | [], [], am, ro, pds => (am, ro, .ok pds)
  | v :: vs, r :: rs, am, ro, pds =>
    let conv := GetOffsetSizeAndDataTypeByConversion v
    if conv.1 ≠ r then (am, ro, .error "return value does not match actual value")
    else
      match E.malloc conv.2 with
      | none => (am, ro, .error "can't allocate memory for return value")
      | some offset =>
        let ro' := storeEntries ro offset conv.2
        let am' := am.store offset conv.2
        if E.write offset v then
          match PackUI64 conv.1 offset conv.2 with
          | none => (am', ro', .error "size exceeds 24 bits precision")
          | some pd => writeLoop E vs rs am' ro' (pds ++ [pd])
        else (am', ro', .error "can't write return value")
  | _ :: _, [], am, ro, _ => (am, ro, .error "results mismatch")
  | [], _ :: _, am, ro, _ => (am, ro, .error "results mismatch")

/-- `writeResultsToMemory`: skip for a nil `*Results`; fail on a count
mismatch; encode each result; then write the array of packed words as one
block, pack it with the reserved `Pack` tag and place it in `stack[0]`.
All error paths return `nil` packed words and a `nil` returnOffsets map
(the tracker entries made so far persist). -/
def writeResultsToMemory (E : Engine) (hf : HostFunction) (am : AllocationMap)
    (results : Option (List Value)) (stack0 : Nat) :
    AllocationMap × Nat × Except String (List Nat × List (Nat × Nat)) :=
  match results with
  | none => (am, stack0, .ok ([], []))
  | some rs =>
    if rs.length ≠ hf.Returns.length then
      (am, stack0, .error "return value missmatch")
    else
      match writeLoop E rs hf.Returns am [] [] with
      | (am', _, .error e) => (am', stack0, .error e)
      | (am', ro, .ok pds) =>
        let offsetSize := pds.length * 8
        match E.malloc offsetSize with
        | none => (am', stack0, .error "can't allocate memory for offset of packed return values")
        | some offset =>
          let ro' := storeEntries ro offset offsetSize
          let am'' := am'.store offset offsetSize
          if E.write offset (Value.bytes (uint64ArrayToBytes pds)) then
            match PackUI64 ValueTypePack offset offsetSize with
            | none => (am'', stack0, .error "size exceeds 24 bits precision")
            | some packedData => (am'', packedData, .ok (pds ++ [packedData], ro'))
          else (am'', stack0, .error "can't write offset of packed return values")

/-- Param half of `cleanup`: skip offsets absent from the tracker, `Free` the
rest and remove them; a `Free` failure aborts the loop. -/
def cleanupParams (E : Engine) : AllocationMap → List Param → AllocationMap × Bool
  | am, [] => (am, false)
  | am, p :: rest =>
    match am.load p.Offset with
    | none => cleanupParams E am rest
    | some _ =>
      if E.free p.Offset then cleanupParams E (am.delete p.Offset) rest
      else (am, true)

/-- Result half of `cleanup`: `Free` every offset in the returnOffsets map and
remove it from the tracker; a `Free` failure aborts the loop. -/
def cleanupReturns (E : Engine) : AllocationMap → List (Nat × Nat) → AllocationMap × Bool
  | am, [] => (am, false)
  | am, (offset, _) :: rest =>
    if E.free offset then cleanupReturns E (am.delete offset) rest
    else (am, true)

/-- `cleanup`: free the param allocations still tracked, then the return
offsets; the Boolean records whether a `Free` call failed. -/
def cleanup (E : Engine) (am : AllocationMap) (params : List Param)
    (returnOffsets : List (Nat × Nat)) : AllocationMap × Bool :=
  match cleanupParams E am params with
  | (am', true) => (am', true)
  | (am', false) => cleanupReturns E am' returnOffsets

/-- Observable outcome of one bridge invocation. -/
structure BridgeOutcome where
  am : AllocationMap
  stack0 : Nat
  decodeErr : Bool
  writeErr : Bool
  cleanupErr : Bool
  callbackInvoked : Bool
  callbackParams : List Param

/-- `wazeroHostFunctionCallback` (src/unnamed/part_000 lines 151-181): decode
the params (an error is only logged, leaving `params` nil), invoke the user
callback unconditionally, encode the results (an error is only logged,
leaving `returnOffsets` nil), then run `cleanup` with those params and
return offsets. -/
def wazeroHostFunctionCallback (E : Engine) (hf : HostFunction)
    (am0 : AllocationMap) (stack : List Nat) : BridgeOutcome :=
  let c := convertParamsToStruct E hf am0 stack
  let decodeErr := match c.2 with | .ok _ => false | .error _ => true
  let params := match c.2 with | .ok ps => ps | .error _ => []
  let results := hf.Callback params
  let w := writeResultsToMemory E hf c.1 results (stack.headD 0)
  let writeErr := match w.2.2 with | .ok _ => false | .error _ => true
  let returnOffsets := match w.2.2 with | .ok pr => pr.2 | .error _ => []
  let cl := cleanup E w.1 params returnOffsets
  { am := cl.1
    stack0 := w.2.1
    decodeErr := decodeErr
    writeErr := writeErr
    cleanupErr := cl.2
    callbackInvoked := true
    callbackParams := params }

/-! ### C3: the cleanup invariant on the tracker -/

/-- Engine for the C3 scenario: `Malloc` hands out offset 16, `Write` fails
(out-of-range), `Free` succeeds. -/
def engineWriteFails : Engine :=
  { readPd := fun _ => none
    malloc := fun _ => some 16
    write := fun _ _ => false
    readBytes := fun _ _ => none
    free := fun _ => true
    readU64 := fun _ => 0 }

/-- Host function for the C3 scenario: no parameters, one declared `Bytes`
result, a callback returning a 2-byte result. -/
def hfOneBytesResult : HostFunction :=
  { Name := "f"
    Params := []
    Returns := [ValueTypeBytes]
    Callback := fun _ => some [Value.bytes [1, 2]] }

/-- C3 (refuted): when the result-encode phase fails after registering an
allocation (here: `Malloc` succeeds at offset 16 for the 2-byte result, the
subsequent `Write` fails), `writeResultsToMemory` returns a nil returnOffsets
map, so `cleanup` never sees the registered entry: after the invocation the
tracker still holds (16, 2) and `totalSize` is 2, not 0. -/
theorem hostBridge_cleanup_leak :
    (wazeroHostFunctionCallback engineWriteFails hfOneBytesResult
      AllocationMap.empty [0]).am.entries = [(16, 2)]
    ∧ (wazeroHostFunctionCallback engineWriteFails hfOneBytesResult
      AllocationMap.empty [0]).am.totalSize = 2
    ∧ (wazeroHostFunctionCallback engineWriteFails hfOneBytesResult
      AllocationMap.empty [0]).writeErr = true := by
  decide

/-! ### C4: parameter-count mismatch handling -/

/-- Host function declaring two `I32` parameters and no results. -/
def hfTwoParams : HostFunction :=
  { Name := "g"
    Params := [ValueTypeI32, ValueTypeI32]
    Returns := []
    Callback := fun _ => none }

/-- C4 counterexample: with two declared parameters and a stack of length 1,
`convertParamsToStruct` does report a count-mismatch error — but the bridge
revision only logs it and still invokes the user callback (with nil params),
contradicting the claim that the callback is not invoked. -/
theorem count_mismatch_callback_still_invoked :
    (wazeroHostFunctionCallback engineWriteFails hfTwoParams
      AllocationMap.empty [0]).decodeErr = true
    ∧ (wazeroHostFunctionCallback engineWriteFails hfTwoParams
      AllocationMap.empty [0]).callbackInvoked = true
    ∧ (wazeroHostFunctionCallback engineWriteFails hfTwoParams
      AllocationMap.empty [0]).callbackParams = [] := by
  decide

/-- C4 amended: for every host function with a non-empty declared parameter
list and every stack of a different length, the bridge records a
count-mismatch decode error, but the user callback is still invoked, with a
nil parameter list. -/
theorem count_mismatch_error_logged_callback_runs (E : Engine) (hf : HostFunction)
    (am0 : AllocationMap) (stack : List Nat)
    (h1 : hf.Params ≠ []) (h2 : stack.length ≠ hf.Params.length) :
    (wazeroHostFunctionCallback E hf am0 stack).decodeErr = true
    ∧ (wazeroHostFunctionCallback E hf am0 stack).callbackInvoked = true
    ∧ (wazeroHostFunctionCallback E hf am0 stack).callbackParams = [] := by
  have hlen : hf.Params.length ≠ 0 := by
    intro h
    exact h1 (List.eq_nil_of_length_eq_zero h)
  have hconv : convertParamsToStruct E hf am0 stack
      = (am0, .error "params mismatch expected received") := by
    unfold convertParamsToStruct
    rw [if_neg hlen, if_pos (Ne.symm h2)]
  unfold wazeroHostFunctionCallback
  rw [hconv]
  exact ⟨rfl, rfl, rfl⟩

/-- Witness for the amended C4 at the concrete host function with two declared
parameters and a stack of length 1. -/
theorem count_mismatch_error_logged_callback_runs_witness :
    (wazeroHostFunctionCallback engineWriteFails hfTwoParams
      AllocationMap.empty [77]).decodeErr = true
    ∧ (wazeroHostFunctionCallback engineWriteFails hfTwoParams
      AllocationMap.empty [77]).callbackInvoked = true
    ∧ (wazeroHostFunctionCallback engineWriteFails hfTwoParams
      AllocationMap.empty [77]).callbackParams = [] :=
  count_mismatch_error_logged_callback_runs engineWriteFails hfTwoParams
    AllocationMap.empty [77] (by decide) (by decide)

/-! ### Host-side write-and-pack helpers (src/module_wazero.go) -/

/-- `WriteUint64Pack` (module_wazero.go lines 359-380): `Malloc(8)`, write the
64-bit value, then pack — the source packs with `types.ValueTypeI32`, which
this model reproduces verbatim. Every error path returns 0. -/
def WriteUint64Pack (E : Engine) (v : Nat) : Nat :=
  match E.malloc 8 with
  | none => 0
  | some offset =>
    if E.write offset (Value.u64 v) then
      match PackUI64 ValueTypeI32 offset 8 with
      | none => 0
      | some pd => pd
    else 0

/-- Host-side `WriteMultiPack` (module_wazero.go lines 484-512): allocate
`8 * len` bytes, build `pdsU64` as `make([]uint64, size)` followed by
`append`s of the packed words (so `size` zero words precede them), write the
byte image, and pack the block — the source packs with
`types.ValueTypeString`, which this model reproduces verbatim. -/
def hostWriteMultiPack (E : Engine) (pds : List Nat) : Nat :=
  let size := pds.length * 8
  if size = 0 then 0
  else
    match E.malloc size with
    | none => 0
    | some offset =>
      let pdsU64 := List.replicate size 0 ++ pds
      if E.write offset (Value.bytes (uint64ArrayToBytes pdsU64)) then
        match PackUI64 ValueTypeString offset size with
        | none => 0
        | some pd => pd
      else 0

/-! ### Guest-side mdk (src/mdk/mdk.go, src/unnamed/part_008)

The guest allocator (`C.malloc` via `bytesToLeakedPtr`) is an oracle
`gAlloc : size → pointer`; the `uint32(...)` pointer conversion appears as
`% 2 ^ 32`. -/

/-- Guest-side `packUI64` (part_008 lines 166-177): same bit layout as the
host codec but an oversized size is only logged — the masked word is
returned anyway, there is no failure path. -/
def mdkPackUI64 (dataType offset size : Nat) : Nat :=
  (dataType <<< 56) ||| (offset <<< 24) ||| (size &&& 0xFFFFFF)

/-- `multiPackedDataToBytes` (part_008 lines 132-154): little-endian byte
image of the packed-word array. -/
def multiPackedDataToBytes (data : List Nat) : List Nat :=
  (data.map u64LeBytes).flatten

/-- Guest-side `WriteMultiPack` (mdk.go lines 377-391): copy the params, turn
them into bytes, allocate and write them (`WriteBytes` =
`bytesToLeakedPtr`), and pack the block with the reserved `Pack` tag. -/
def mdkWriteMultiPack (gAlloc : Nat → Nat) (params : List Nat) : Nat :=
  if params.length = 0 then 0
  else
    let packedBytes := multiPackedDataToBytes params
    let packedByetesSize := packedBytes.length
    mdkPackUI64 ValueTypePack (gAlloc packedByetesSize % 2 ^ 32) packedByetesSize

/-- Guest-side `MultiPackedData.Read` (mdk.go lines 291-311): a zero handle
reads as nil; a tag other than `Pack` is an error (nil); otherwise
`size / 8` words are copied from guest memory at the block offset.
`readU64` is the guest linear-memory load underlying `unsafe.Slice`. -/
def mdkMultiPackedDataRead (readU64 : Nat → Nat) (mpd : Nat) : Option (List Nat) :=
  if mpd = 0 then none
  else
    let u := UnpackUI64 mpd
    if u.1 ≠ ValueTypePack then none
    else
      let count := u.2.2 / 8
      some ((List.range count).map (fun i => readU64 (u.2.1 + 8 * i)))

/-! ### Host-side guest-function result reader (src/guest_function.go 111-168) -/

/-- One engine/memory operation issued by the result reader, for tracking
which memory effects a call performs. -/
inductive MemOp
  | readBytesOp (offset size : Nat)
  | readPdOp (pd : Nat)
  | freeOp (offset : Nat)
deriving DecidableEq

/-- Whether a memory operation is a `Free`. -/
def MemOp.isFreeOp : MemOp → Bool
  | .freeOp _ => true
  | _ => false

/-- `GuestFunctionResult.ReadResults` (guest_function.go lines 128-163):
reject a zero handle and a non-`Pack` tag, read the `size`-byte block,
decode `size / 8` packed words, and `Read` each one (a per-word read error
is ignored, leaving a nil entry). The second component lists every memory
operation the call performs — there is no `Free` among them. -/
def guestFunctionResultReadResults (E : Engine) (packedData : Nat) :
    Except String (List (Option Value)) × List MemOp :=
  if packedData = 0 then (.error "packedData is empty", [])
  else
    let u := UnpackUI64 packedData
    if u.1 ≠ ValueTypePack then
      (.error "the type is not a valueTypePack", [])
    else
      match E.readBytes u.2.1 u.2.2 with
      | none => (.error "ReadResults error, can't read bytes", [MemOp.readBytesOp u.2.1 u.2.2])
      | some bytes =>
        let packedDatas := bytesToUint64Array bytes
        (.ok (packedDatas.map (fun pd => (E.readPd pd).map (fun x => x.2.2))),
          MemOp.readBytesOp u.2.1 u.2.2 :: packedDatas.map MemOp.readPdOp)

/-- `GuestFunctionResult.Free` (guest_function.go lines 166-168): the body is
empty (`TODO: Free allocated date`), so the call performs no memory
operations at all. -/
def guestFunctionResultFree : List MemOp := []

/-- Whether an `Except` result is a success. -/
def exceptIsOk : Except String (List (Option Value)) → Bool
  | .ok _ => true
  | .error _ => false

/-- Extract the payload of a successful read. -/
def exceptGetOk : Except String (List (Option Value)) → Option (List (Option Value))
  | .ok l => some l
  | .error _ => none

/-- A concrete inner packed word: an I32 of 4 bytes at offset 50. -/
def pdInnerI32 : Nat := (PackUI64 ValueTypeI32 50 4).getD 0

/-- Engine for the multipack scenarios: `Malloc` hands out offset 40 and
`Write` succeeds. -/
def engineMultiPack : Engine :=
  { readPd := fun _ => none
    malloc := fun _ => some 40
    write := fun _ _ => true
    readBytes := fun _ _ => none
    free := fun _ => true
    readU64 := fun _ => 0 }

/-- C5 (refuted on the host side): grouping one result word with the
host-side `WriteMultiPack` yields a word whose top 8 bits are
`ValueTypeString` (6), not the reserved `Pack` tag (255); the guest-side
`WriteMultiPack` does carry the `Pack` tag. -/
theorem hostWriteMultiPack_tag_not_pack :
    (UnpackUI64 (hostWriteMultiPack engineMultiPack [pdInnerI32])).1 = ValueTypeString
    ∧ ValueTypeString ≠ ValueTypePack
    ∧ (UnpackUI64 (mdkWriteMultiPack (fun _ => 300) [pdInnerI32])).1 = ValueTypePack := by
  decide

/-- C6 (refuted): the word built by the host-side `WriteMultiPack` for one
packed result does carry `size / 8 = 1`, but both readers reject it — the
guest-side `MultiPackedData.Read` returns nil and the host-side
`ReadResults` returns an error — because its tag is `String`, not `Pack`,
so the write-then-read round trip yields no values instead of the written
list. -/
theorem multiPack_write_read_fails :
    (UnpackUI64 (hostWriteMultiPack engineMultiPack [pdInnerI32])).2.2 / 8 = 1
    ∧ mdkMultiPackedDataRead (fun _ => 0)
        (hostWriteMultiPack engineMultiPack [pdInnerI32]) = none
    ∧ exceptIsOk (guestFunctionResultReadResults engineMultiPack
        (hostWriteMultiPack engineMultiPack [pdInnerI32])).1 = false := by
  decide

/-- A well-formed MultiPackedWord handle: tag `Pack`, one inner word of 8
bytes at offset 100. -/
def mpdHandle : Nat := (PackUI64 ValueTypePack 100 8).getD 0

/-- Engine for the reader scenario: the 8-byte block at the handle's offset
holds `pdInnerI32`, and reading that inner word yields the I32 value 7. -/
def engineReader : Engine :=
  { readPd := fun pd => if pd = pdInnerI32 then some (50, 4, Value.u32 7) else none
    malloc := fun _ => none
    write := fun _ _ => false
    readBytes := fun _ _ => some (u64LeBytes pdInnerI32)
    free := fun _ => true
    readU64 := fun _ => 0 }

/-- C7 (refuted): a successful `ReadResults` performs no `Free` operation at
all (its memory-operation trace contains none), `GuestFunctionResult.Free`
performs no operation either, and because the reader keeps no consumed
flag, a second `ReadResults` on the same handle succeeds with the same
values instead of failing — the reader is not single-use. -/
theorem guestFunctionResult_reader_not_single_use :
    exceptGetOk (guestFunctionResultReadResults engineReader mpdHandle).1
      = some [some (Value.u32 7)]
    ∧ (guestFunctionResultReadResults engineReader mpdHandle).2.filter MemOp.isFreeOp = []
    ∧ guestFunctionResultFree = [] := by
  decide

/-- Engine for the C9 scenario: `Malloc` hands out offset 24, `Write`
succeeds. -/
def engineMalloc24 : Engine :=
  { readPd := fun _ => none
    malloc := fun _ => some 24
    write := fun _ _ => true
    readBytes := fun _ _ => none
    free := fun _ => true
    readU64 := fun _ => 0 }

/-- C9 (refuted): `WriteUint64Pack` packs the word with tag `ValueTypeI32`
(2), while the type-inference function assigns uint64 values the tag
`ValueTypeI64` (3); the size field 8 does match. -/
theorem writeUint64Pack_tag_mismatch :
    (UnpackUI64 (WriteUint64Pack engineMalloc24 7)).1 = ValueTypeI32
    ∧ (UnpackUI64 (WriteUint64Pack engineMalloc24 7)).2.2 = 8
    ∧ GetOffsetSizeAndDataTypeByConversion (Value.u64 7) = (ValueTypeI64, 8)
    ∧ ValueTypeI32 ≠ ValueTypeI64 := by
  decide
